import Mathlib

set_option maxHeartbeats 1000000

/-!
Verification development for the supermemory vector-memory retrieval layer.

The definitions below are a shallow embedding of the TypeScript sources:
`src/storage/SimpleVectorStore.ts`, `src/storage/VectorStore.ts`,
`src/core/Supermemory.ts`, `src/core/SmartMemoryFilter.ts`,
`src/rag/PineconeRAG.ts` and `src/rag/ChromaRAG.ts`.

Modelling conventions:
- JavaScript numbers are idealized: embedding vector components and
  similarity scores are real numbers (`Math.sqrt` becomes `Real.sqrt`),
  while metadata scalars, importance values and timestamps are rationals,
  which keeps every metadata computation decidable.
- A JavaScript object used as an open key-value map (the `MemoryMetadata`
  index signature) is an association list `List (String × MetaValue)`;
  lookup takes the first binding, so prepending a binding models a
  spread-override such as `\x7b...metadata, importance: v\x7d`.
- External collaborators (embedding backend, LLM call, JSON.parse, the
  Pinecone / Chroma / FAISS services, locale and float formatting) are
  parameters of the embedded functions, never stubs of repository logic.
- Fallible repository code (a throwing cosine similarity, a throwing
  search) is embedded in `Except String`.
-/

namespace Supermem

/-! ### Metadata model -/

/-- Values stored in a JavaScript metadata object: strings, numbers and
string arrays, which are the shapes `MemoryMetadata` uses. -/
inductive MetaValue where
  | str : String → MetaValue
  | num : ℚ → MetaValue
  | arr : List String → MetaValue
deriving DecidableEq

/-- Open key-value metadata map, modelling the `MemoryMetadata` interface
of `src/types/index.ts` (which has an index signature). -/
abbrev Metadata := List (String × MetaValue)

/-- Reading `metadata[key]`; an absent key is JavaScript `undefined`. -/
def mget (md : Metadata) (k : String) : Option MetaValue :=
  List.lookup k md

/-- JavaScript truthiness on a metadata value: empty strings and the
number 0 are falsy, arrays are truthy. -/
def truthy : MetaValue → Bool
  | .str s => s ≠ ""
  | .num x => x ≠ 0
  | .arr _ => true

/-- JavaScript `x || d` for a possibly-undefined metadata value. -/
def jsOr (v : Option MetaValue) (d : MetaValue) : MetaValue :=
  match v with
  | none => d
  | some x => if truthy x then x else d

/-- Spread-override `\x7b...md, k: v\x7d`: the new binding shadows any
older binding for `k` because `mget` takes the first match. -/
def objSet (md : Metadata) (k : String) (v : MetaValue) : Metadata :=
  (k, v) :: md

def userIdKey : String := "userId"

def conversationIdKey : String := "conversationId"

def messageTypeKey : String := "messageType"

def importanceKey : String := "importance"

def categoryKey : String := "category"

def tagsKey : String := "tags"

def contentKey : String := "content"

def timestampKey : String := "timestamp"

/-! ### Records -/

/-- The `Memory` interface of `src/types/index.ts`. -/
structure Memory where
  id : String
  content : String
  embedding : List ℝ
  metadata : Metadata
  timestamp : ℚ

/-- The `MemoryResult` interface: one search hit with its score. -/
structure MemoryResult where
  memory : Memory
  similarity : ℝ

/-! ### String helpers used by the heuristic classifier -/

/-- ASCII lowering of one character, as `String.prototype.toLowerCase`
acts on the ASCII inputs the classifier receives. -/
def charToLower (c : Char) : Char :=
  if 65 ≤ c.toNat ∧ c.toNat ≤ 90 then Char.ofNat (c.toNat + 32) else c

/-- Lowering of a whole character list. -/
def listToLower (l : List Char) : List Char :=
  l.map charToLower

/-- Substring test on character lists, modelling
`String.prototype.includes`. -/
def listContains : List Char → List Char → Bool
  | [], pat => pat.isEmpty
  | c :: rest, pat => pat.isPrefixOf (c :: rest) || listContains rest pat

/-- Substring test on strings. -/
def containsSubstr (s pat : String) : Bool :=
  listContains s.data pat.data

/-- Token count of `s.split(' ')`: splitting on a single character yields
one more token than there are occurrences of that character. -/
def jsSplitLen (l : List Char) : ℕ :=
  l.count ' ' + 1

namespace SmartMemoryFilter

/-- Category tags of `src/core/SmartMemoryFilter.ts`. -/
inductive Category where
  | personal
  | preference
  | project
  | question
  | casual
  | important
deriving DecidableEq

/-- The `MemoryDecision` interface of `src/core/SmartMemoryFilter.ts`. -/
structure MemoryDecision where
  shouldStore : Bool
  reasoning : String
  importance : ℚ
  extractedFacts : List String
  category : Category
deriving DecidableEq

def greetings : List String :=
  ["hi", "hello", "hey", "bye", "goodbye", "thanks", "thank you"]

/-- The keyword spelled i-apostrophe-m, built from character codes so that
the apostrophe (code 39) appears explicitly. -/
def imKeyword : String :=
  ⟨['i', Char.ofNat 39, 'm']⟩

def personalKeywords : List String :=
  ["my name is", "i am", imKeyword, "i live", "i work"]

def preferenceKeywords : List String :=
  ["i like", "i love", "i prefer", "i hate", "i dislike", "favorite"]

def projectKeywords : List String :=
  ["building", "working on", "project", "developing", "creating"]

/-- Embedding of `SmartMemoryFilter.heuristicAnalysis` (lines 88 to 169 of
`src/core/SmartMemoryFilter.ts`), the deterministic fallback classifier. -/
def heuristicAnalysis (userMessage aiResponse : String) : MemoryDecision :=
  let lowerMessage := listToLower userMessage.data
  if greetings.any (fun g => lowerMessage == g.data || lowerMessage == g.data ++ ['!']) then
    { shouldStore := false
      reasoning := "Casual greeting"
      importance := 1/10
      extractedFacts := []
      category := .casual }
  else if personalKeywords.any (fun k => listContains lowerMessage k.data) then
    { shouldStore := true
      reasoning := "Contains personal information"
      importance := 9/10
      extractedFacts := [userMessage]
      category := .personal }
  else if preferenceKeywords.any (fun k => listContains lowerMessage k.data) then
    { shouldStore := true
      reasoning := "Contains user preference"
      importance := 8/10
      extractedFacts := [userMessage]
      category := .preference }
  else if projectKeywords.any (fun k => listContains lowerMessage k.data) then
    { shouldStore := true
      reasoning := "Contains project information"
      importance := 9/10
      extractedFacts := [userMessage]
      category := .project }
  else if listContains lowerMessage ['?'] && decide (3 < jsSplitLen userMessage.data) then
    { shouldStore := true
      reasoning := "Important question and answer"
      importance := 7/10
      extractedFacts := [userMessage, aiResponse]
      category := .question }
  else if 5 < jsSplitLen userMessage.data then
    { shouldStore := true
      reasoning := "Substantial conversation"
      importance := 6/10
      extractedFacts := [userMessage]
      category := .important }
  else
    { shouldStore := false
      reasoning := "Too short or casual"
      importance := 2/10
      extractedFacts := []
      category := .casual }

def fenceJson : String := "```json"

def fenceJsonNl : String := "```json\n"

def fence : String := "```"

def fenceNl : String := "```\n"

/-- Embedding of the markdown-fence cleanup on lines 62 to 67 of
`src/core/SmartMemoryFilter.ts`; the regex `x\n?` replacements are
modelled by replacing the newline-suffixed pattern first. -/
def cleanResponse (response : String) : String :=
  let c := response.trim
  if fenceJson.isPrefixOf c then
    (((c.replace fenceJsonNl "").replace fenceJson "").replace fenceNl "").replace fence ""
  else if fence.isPrefixOf c then
    (c.replace fenceNl "").replace fence ""
  else
    c

/-- Embedding of `SmartMemoryFilter.analyzeConversation` (lines 27 to 83).
The external LLM call is the `llmResponse` argument (`Except` models a
throwing call); JSON.parse plus the shouldStore shape validation is the
`parseDecision` oracle, returning `none` exactly when the primary path
would throw and land in the catch block. -/
def analyzeConversation (llmResponse : Except String String)
    (parseDecision : String → Option MemoryDecision)
    (userMessage aiResponse : String) : MemoryDecision :=
  match llmResponse with
  | .error _ => heuristicAnalysis userMessage aiResponse
  | .ok response =>
    match parseDecision (cleanResponse response) with
    | none => heuristicAnalysis userMessage aiResponse
    | some decision => decision

end SmartMemoryFilter

/-! ### SimpleVectorStore (src/storage/SimpleVectorStore.ts) -/

def dimensionError : String := "Vectors must have the same dimension"

/-- Embedding of `SimpleVectorStore.cosineSimilarity` (lines 35 to 52):
dot product over paired components, square norms, and the zero-denominator
guard; a dimension mismatch throws. -/
noncomputable def cosineSimilarity (vecA vecB : List ℝ) : Except String ℝ :=
  if vecA.length ≠ vecB.length then .error dimensionError
  else
    let dotProduct := (List.zipWith (fun a b => a * b) vecA vecB).sum
    let normA := (vecA.map (fun a => a * a)).sum
    let normB := (vecB.map (fun b => b * b)).sum
    let denominator := Real.sqrt normA * Real.sqrt normB
    .ok (if denominator = 0 then 0 else dotProduct / denominator)

/-- Reading `metadata.tags || []` as the stored string array. -/
def memTags (md : Metadata) : List String :=
  match mget md tagsKey with
  | some (.arr ts) => ts
  | _ => []

/-- One entry of the filter loop in `SimpleVectorStore.matchesFilter`
(lines 112 to 125): the tags entry succeeds when some filter tag occurs in
the stored tags; every other entry requires strict equality with the
stored value, and an absent key never equals a present filter value. An
array value under a key other than tags compares by object reference in
JavaScript, which a fresh filter literal never satisfies. -/
def matchEntry (md : Metadata) (k : String) (v : MetaValue) : Bool :=
  match v with
  | .arr tags =>
    if k = tagsKey then tags.any (fun t => (memTags md).contains t)
    else false
  | _ => mget md k == some v

/-- Embedding of `SimpleVectorStore.matchesFilter`: conjunctive over the
filter entries. -/
def matchesFilter (md : Metadata) (filter : Metadata) : Bool :=
  filter.all (fun kv => matchEntry md kv.1 kv.2)

/-- The guard `if (filter && !this.matchesFilter(...)) continue` of the
search loop: a memory is kept when no filter was passed or the filter
matches. -/
def keepMemory (filter : Option Metadata) (md : Metadata) : Bool :=
  match filter with
  | none => true
  | some f => matchesFilter md f

/-- The result-collection loop of `SimpleVectorStore.search` (lines 85 to
101): filtered-out memories are skipped, every kept memory gets a cosine
score, and a similarity error aborts the search. -/
noncomputable def collectResults (queryEmbedding : List ℝ) (filter : Option Metadata) :
    List Memory → Except String (List MemoryResult)
  | [] => .ok []
  | memory :: rest =>
    if keepMemory filter memory.metadata then
      match cosineSimilarity queryEmbedding memory.embedding with
      | .error e => .error e
      | .ok similarity =>
        match collectResults queryEmbedding filter rest with
        | .error e => .error e
        | .ok results => .ok ({ memory := memory, similarity := similarity } :: results)
    else
      collectResults queryEmbedding filter rest

/-- Descending order on search results: the comparator
`(a, b) => b.similarity - a.similarity`. -/
def simGE (a b : MemoryResult) : Prop :=
  b.similarity ≤ a.similarity

noncomputable instance : DecidableRel simGE :=
  fun _ _ => Classical.dec _

instance : IsTotal MemoryResult simGE :=
  ⟨fun a b => le_total b.similarity a.similarity⟩

instance : IsTrans MemoryResult simGE :=
  ⟨fun _ _ _ hab hbc => hbc.trans hab⟩

/-- Embedding of `SimpleVectorStore.search` (lines 76 to 107): early
return on an empty store, score all memories passing the filter, sort by
descending similarity, keep the first `topK`. -/
noncomputable def SimpleVectorStore.search (memories : List Memory) (queryEmbedding : List ℝ)
    (topK : ℕ) (filter : Option Metadata) : Except String (List MemoryResult) :=
  if memories.length = 0 then .ok []
  else
    match collectResults queryEmbedding filter memories with
    | .error e => .error e
    | .ok results => .ok ((List.insertionSort simGE results).take topK)

/-- Embedding of `SimpleVectorStore.add` (lines 57 to 62): push at the
end of the memory array. -/
def SimpleVectorStore.add (memory : Memory) (memories : List Memory) : List Memory :=
  memories ++ [memory]

/-! ### VectorStore (src/storage/VectorStore.ts, FAISS backend) -/

/-- Labels and distances returned by the external FAISS index search;
the two arrays are parallel. -/
structure FaissResult where
  labels : List Int
  distances : List ℝ

/-- The bounds check `idx >= 0 && idx < this.memories.length` followed by
the array access. -/
def memAt (memories : List Memory) (idx : Int) : Option Memory :=
  if h : 0 ≤ idx ∧ idx.toNat < memories.length then some (memories.get ⟨idx.toNat, h.2⟩)
  else none

/-- The collection loop of `VectorStore.search` (lines 87 to 108): each
in-bounds label passing the filter contributes the converted similarity
`1 / (1 + distance)`, and the loop breaks once `topK` results are
collected (checked after each push). -/
noncomputable def VectorStore.collect (memories : List Memory) (filter : Option Metadata)
    (topK : ℕ) : List (Int × ℝ) → ℕ → List MemoryResult
  | [], _ => []
  | (idx, distance) :: rest, count =>
    match memAt memories idx with
    | none => VectorStore.collect memories filter topK rest count
    | some memory =>
      if keepMemory filter memory.metadata then
        let result : MemoryResult := { memory := memory, similarity := 1 / (1 + distance) }
        if topK ≤ count + 1 then [result]
        else result :: VectorStore.collect memories filter topK rest (count + 1)
      else VectorStore.collect memories filter topK rest count

/-- Embedding of `VectorStore.search` (lines 68 to 114): empty-store early
return, FAISS post-processing, and a final descending sort. The FAISS
call itself is external, so its response is the `faiss` argument. -/
noncomputable def VectorStore.search (memories : List Memory) (faiss : FaissResult)
    (topK : ℕ) (filter : Option Metadata) : List MemoryResult :=
  if memories.length = 0 then []
  else
    List.insertionSort simGE
      (VectorStore.collect memories filter topK (faiss.labels.zip faiss.distances) 0)

/-! ### Supermemory facade (src/core/Supermemory.ts) -/

/-- The memory object literal of `Supermemory.remember` (lines 76 to 85):
fresh id, embedding from the external embedder, and the metadata spread
`\x7b...metadata, importance: metadata.importance || 0.5\x7d`. -/
def Supermemory.mkMemory (embed : String → List ℝ) (newId : String) (now : ℚ)
    (content : String) (metadata : Metadata) : Memory :=
  { id := newId
    content := content
    embedding := embed content
    metadata := objSet metadata importanceKey (jsOr (mget metadata importanceKey) (.num (1/2)))
    timestamp := now }

/-- Embedding of `Supermemory.remember` (lines 64 to 91): build the
memory, add it to the vector store, return its id. -/
def Supermemory.remember (embed : String → List ℝ) (newId : String) (now : ℚ)
    (content : String) (metadata : Metadata) (store : List Memory) : String × List Memory :=
  let memory := Supermemory.mkMemory embed newId now content metadata
  (memory.id, SimpleVectorStore.add memory store)

/-- Embedding of `Supermemory.rememberConversation` (lines 210 to 232).
The base metadata `\x7b conversationId, ...metadata \x7d` lets caller
metadata shadow the conversationId, which the association list mirrors by
appending the conversationId binding after the caller bindings. The user
turn is stored first, then the assistant turn on the updated store. -/
def Supermemory.rememberConversation (embed : String → List ℝ) (userMemId asstMemId : String)
    (nowUser nowAsst : ℚ) (userMessage assistantMessage : String) (conversationId : String)
    (metadata : Metadata) (store : List Memory) : (String × String) × List Memory :=
  let baseMetadata : Metadata := metadata ++ [(conversationIdKey, .str conversationId)]
  let r1 := Supermemory.remember embed userMemId nowUser userMessage
      (objSet baseMetadata messageTypeKey (.str "user")) store
  let r2 := Supermemory.remember embed asstMemId nowAsst assistantMessage
      (objSet baseMetadata messageTypeKey (.str "assistant")) r1.2
  ((r1.1, r2.1), r2.2)

/-- The `LLMContext` interface of `src/types/index.ts`. -/
structure LLMContext where
  systemPrompt : Option String
  memories : List MemoryResult
  currentQuery : String

/-- One iteration of the memory-rendering loop in
`Supermemory.formatContextForPrompt` (lines 188 to 198). Locale date
formatting and `toFixed(1)` float formatting are external, passed as
`fmtDate` and `fmtFixed1`. -/
def Supermemory.renderMemory (fmtDate : ℚ → String) (fmtFixed1 : ℝ → String)
    (idx : ℕ) (result : MemoryResult) : String :=
  let head := "\n[Memory " ++ toString (idx + 1) ++ "] (Relevance: "
    ++ fmtFixed1 (result.similarity * 100) ++ "%)\n"
    ++ "Time: " ++ fmtDate result.memory.timestamp ++ "\n"
  let conv := match mget result.memory.metadata conversationIdKey with
    | some (.str cid) => if cid = "" then "" else "Conversation: " ++ cid ++ "\n"
    | _ => ""
  head ++ conv ++ "Content: " ++ result.memory.content ++ "\n"

/-- Embedding of `Supermemory.formatContextForPrompt` (lines 179 to 205):
optional system prompt, a memories block emitted only when at least one
memory was retrieved, then the current query. -/
def Supermemory.formatContextForPrompt (fmtDate : ℚ → String) (fmtFixed1 : ℝ → String)
    (context : LLMContext) : String :=
  let prompt := match context.systemPrompt with
    | some sp => if sp = "" then "" else sp ++ "\n\n"
    | none => ""
  let prompt := if 0 < context.memories.length then
      prompt ++ "=== RELEVANT MEMORIES ===\n"
        ++ String.join ((context.memories.enum).map
            (fun p => Supermemory.renderMemory fmtDate fmtFixed1 p.1 p.2))
        ++ "\n=== END MEMORIES ===\n\n"
    else prompt
  prompt ++ "Current Query: " ++ context.currentQuery

/-! ### PineconeRAG (src/rag/PineconeRAG.ts) -/

/-- Typed read of a string field the store always writes. -/
def mgetStr (md : Metadata) (k : String) : String :=
  match mget md k with
  | some (.str s) => s
  | _ => ""

/-- Typed read of a numeric field the store always writes. -/
def mgetNum (md : Metadata) (k : String) : ℚ :=
  match mget md k with
  | some (.num x) => x
  | _ => 0

/-- JavaScript `x || d` for a typed numeric field: 0 and undefined fall
back to the default. -/
def jsOrNum (v : Option MetaValue) (d : ℚ) : ℚ :=
  match v with
  | some (.num x) => if x = 0 then d else x
  | _ => d

/-- Default threshold of `PineconeRAG.retrieve`, line 203:
`const \x7b topK = 5, filter, threshold = 0.3 \x7d = options`. -/
noncomputable def pineconeDefaultThreshold : ℝ := 3/10

/-- Default threshold of `ChromaRAG.retrieve`:
`const \x7b topK = 5, filter, threshold = 0.7 \x7d = options`. -/
noncomputable def chromaDefaultThreshold : ℝ := 7/10

/-- Options object of the retrieve operations; a destructuring default
applies exactly when the field is undefined. -/
structure RetrieveOptions where
  topK : Option ℕ
  filter : Option Metadata
  threshold : Option ℝ

/-- One match of the external Pinecone query response; absent `values`
are modeled as the empty list. -/
structure PineMatch where
  id : String
  score : Option ℝ
  values : List ℝ
  metadata : Metadata

/-- The memory metadata object rebuilt by `PineconeRAG.retrieve` (lines
241 to 247): fields are copied when present and the comma-joined tags
string is split back into an array. -/
def PineconeRAG.reconstructMetadata (md : Metadata) : Metadata :=
  (match mget md userIdKey with | some v => [(userIdKey, v)] | none => [])
  ++ (match mget md conversationIdKey with | some v => [(conversationIdKey, v)] | none => [])
  ++ (match mget md messageTypeKey with | some v => [(messageTypeKey, v)] | none => [])
  ++ (match mget md importanceKey with | some v => [(importanceKey, v)] | none => [])
  ++ [(tagsKey, .arr (match mget md tagsKey with
      | some (.str s) => if s = "" then [] else s.splitOn ","
      | _ => []))]

/-- Post-processing of `PineconeRAG.retrieve` (lines 203 and 230 to 259):
the external query response is the `queryMatches` argument; a match is kept
when its score is truthy (nonzero) and at least the threshold, which
defaults to 0.3. -/
noncomputable def PineconeRAG.retrieve (queryMatches : List PineMatch)
    (options : RetrieveOptions) : List MemoryResult :=
  let threshold := options.threshold.getD pineconeDefaultThreshold
  queryMatches.foldr (fun m acc =>
    match m.score with
    | none => acc
    | some score =>
      if score ≠ 0 ∧ threshold ≤ score then
        { memory := { id := m.id
                      content := mgetStr m.metadata contentKey
                      embedding := m.values
                      metadata := PineconeRAG.reconstructMetadata m.metadata
                      timestamp := mgetNum m.metadata timestampKey }
          similarity := score } :: acc
      else acc) []

/-- The flat metadata object written by `PineconeRAG.create` (lines 118
to 131), including the `|| 0.5` importance default and the optional
comma-joined tags entry. -/
def PineconeRAG.flatMetadata (now : ℚ) (content : String) (metadata : Metadata) : Metadata :=
  let base : Metadata :=
    [(contentKey, .str content),
     (timestampKey, .num now),
     (userIdKey, jsOr (mget metadata userIdKey) (.str "default")),
     (conversationIdKey, jsOr (mget metadata conversationIdKey) (.str "default")),
     (messageTypeKey, jsOr (mget metadata messageTypeKey) (.str "user")),
     (importanceKey, jsOr (mget metadata importanceKey) (.num (1/2))),
     (categoryKey, jsOr (mget metadata categoryKey) (.str "general"))]
  match mget metadata tagsKey with
  | some (.arr ts) =>
    if 0 < ts.length then base ++ [(tagsKey, .str (String.intercalate "," ts))] else base
  | _ => base

/-- Vector record upserted into the Pinecone index. -/
structure PineVector where
  id : String
  values : List ℝ
  metadata : Metadata

/-- Embedding of `PineconeRAG.create` (lines 108 to 142): embed the
content, generate a fresh id, upsert one vector with the flat metadata. -/
def PineconeRAG.create (embed : String → List ℝ) (newId : String) (now : ℚ)
    (content : String) (metadata : Metadata) : PineVector :=
  { id := newId
    values := embed content
    metadata := PineconeRAG.flatMetadata now content metadata }

def relevantMemoriesMarker : String := "=== RELEVANT MEMORIES ==="

def noMemoriesMessage : String := "No relevant memories found."

def defaultSystemPrompt : String := "You are a helpful AI assistant with perfect memory."

/-- One iteration of the context-rendering loop of
`PineconeRAG.retrieveAndGenerate` (lines 378 to 383). -/
def PineconeRAG.renderMemory (fmtDate : ℚ → String) (fmtFixed1 : ℝ → String)
    (idx : ℕ) (result : MemoryResult) : String :=
  "[Memory " ++ toString (idx + 1) ++ "] (Relevance: "
    ++ fmtFixed1 (result.similarity * 100) ++ "%)\n"
    ++ "Time: " ++ fmtDate result.memory.timestamp ++ "\n"
    ++ "Content: " ++ result.memory.content ++ "\n\n"

/-- The context string built by `PineconeRAG.retrieveAndGenerate` (lines
374 to 389) before the LLM call: system prompt (defaulted through `||`),
the relevant-memories block with an explicit no-memories line when the
retrieval came back empty, the end marker, and the current query. -/
def PineconeRAG.buildContext (fmtDate : ℚ → String) (fmtFixed1 : ℝ → String)
    (systemPrompt : Option String) (query : String) (memories : List MemoryResult) : String :=
  let base := match systemPrompt with
    | some sp => if sp = "" then defaultSystemPrompt else sp
    | none => defaultSystemPrompt
  let context := base ++ "\n\n=== RELEVANT MEMORIES ===\n\n"
  let context := if 0 < memories.length then
      context ++ String.join ((memories.enum).map
        (fun p => PineconeRAG.renderMemory fmtDate fmtFixed1 p.1 p.2))
    else context ++ "No relevant memories found.\n\n"
  context ++ "=== END MEMORIES ===\n\n" ++ "Current Query: " ++ query

/-! ### ChromaRAG (src/rag/ChromaRAG.ts) -/

/-- One row of the external Chroma query response, pairing the id with
its distance, metadata and embedding. -/
structure ChromaRow where
  id : String
  distance : ℝ
  metadata : Metadata
  embedding : List ℝ

/-- The memory metadata rebuilt by `ChromaRAG.retrieve`; Chroma stores
every field as a string, so importance is parsed back through the
external `parseFloat`, modeled by the `parseFloatQ` argument. -/
def ChromaRAG.reconstructMetadata (parseFloatQ : String → ℚ) (md : Metadata) : Metadata :=
  (match mget md userIdKey with | some v => [(userIdKey, v)] | none => [])
  ++ (match mget md conversationIdKey with | some v => [(conversationIdKey, v)] | none => [])
  ++ (match mget md messageTypeKey with | some v => [(messageTypeKey, v)] | none => [])
  ++ [(importanceKey, .num (parseFloatQ (mgetStr md importanceKey)))]
  ++ [(tagsKey, .arr (match mget md tagsKey with
      | some (.str s) => if s = "" then [] else s.splitOn ","
      | _ => []))]

/-- Post-processing of `ChromaRAG.retrieve` (lines 373 to 439 of the
source file): similarity is `1 - distance`, and a row is kept when the
similarity is at least the threshold, which defaults to 0.7. The stored
timestamp string is parsed back through the external `parseInt`, modeled
by `parseIntQ`. -/
noncomputable def ChromaRAG.retrieveRows (parseFloatQ parseIntQ : String → ℚ)
    (rows : List ChromaRow) (options : RetrieveOptions) : List MemoryResult :=
  let threshold := options.threshold.getD chromaDefaultThreshold
  rows.foldr (fun row acc =>
    let similarity := 1 - row.distance
    if threshold ≤ similarity then
      { memory := { id := row.id
                    content := mgetStr row.metadata contentKey
                    embedding := row.embedding
                    metadata := ChromaRAG.reconstructMetadata parseFloatQ row.metadata
                    timestamp := parseIntQ (mgetStr row.metadata timestampKey) }
        similarity := similarity } :: acc
    else acc) []

/-- The stringly-typed metadata object written by `ChromaRAG.create`,
including `importance: (metadata.importance || 0.5).toString()`; number
formatting is the external `numToString`. -/
def ChromaRAG.createMetadata (numToString : ℚ → String) (now : ℚ)
    (content : String) (metadata : Metadata) : Metadata :=
  [(contentKey, .str content),
   (timestampKey, .str (numToString now)),
   (userIdKey, jsOr (mget metadata userIdKey) (.str "default")),
   (conversationIdKey, jsOr (mget metadata conversationIdKey) (.str "default")),
   (messageTypeKey, jsOr (mget metadata messageTypeKey) (.str "user")),
   (importanceKey, .str (numToString (jsOrNum (mget metadata importanceKey) (1/2)))),
   (categoryKey, jsOr (mget metadata categoryKey) (.str "general")),
   (tagsKey, .str (match mget metadata tagsKey with
     | some (.arr ts) => String.intercalate "," ts
     | _ => ""))]

/-- Embedding of `ChromaRAG.create`: embed the content, generate a fresh
id, add one row with the stringly-typed metadata. -/
def ChromaRAG.create (embed : String → List ℝ) (numToString : ℚ → String) (newId : String)
    (now : ℚ) (content : String) (metadata : Metadata) : ChromaRow :=
  { id := newId
    distance := 0
    metadata := ChromaRAG.createMetadata numToString now content metadata
    embedding := embed content }

/-! ### Concrete scenarios used by witnesses and counterexamples -/

/-- A stored memory owned by alice, with an empty (dimension zero)
embedding so that concrete searches evaluate without square roots. -/
def memAlice : Memory :=
  { id := "id-a", content := "hello from alice", embedding := [],
    metadata := [(userIdKey, .str "alice")], timestamp := 0 }

/-- A stored memory owned by bob. -/
def memBob : Memory :=
  { id := "id-b", content := "hello from bob", embedding := [],
    metadata := [(userIdKey, .str "bob")], timestamp := 0 }

/-- A stored memory whose one-dimensional embedding points opposite to
the query vector `[1]`. -/
noncomputable def memNeg : Memory :=
  { id := "id-n", content := "antiparallel", embedding := [-1],
    metadata := [], timestamp := 0 }

/-- A stored memory with an empty embedding and empty metadata. -/
def memZero : Memory :=
  { id := "id-z", content := "zero", embedding := [],
    metadata := [], timestamp := 0 }

/-- Retrieve options that pass no explicit threshold, topK or filter. -/
def noThresholdOptions : RetrieveOptions :=
  { topK := none, filter := none, threshold := none }

/-- A Chroma response row at distance 0.5, hence similarity 0.5. -/
noncomputable def halfRow : ChromaRow :=
  { id := "m1", distance := 1/2, metadata := [], embedding := [] }

/-- A Pinecone response match with score 0.5. -/
noncomputable def halfMatch : PineMatch :=
  { id := "m1", score := some (1/2), values := [], metadata := [] }

/-! ### Helper lemmas: norms and the Cauchy-Schwarz bound -/

theorem normSq_nonneg (a : List ℝ) : 0 ≤ (a.map (fun x => x * x)).sum :=
  List.sum_nonneg (by
    intro x hx
    obtain ⟨y, _, rfl⟩ := List.mem_map.1 hx
    exact mul_self_nonneg y)

theorem dot_sq_le (a : List ℝ) : ∀ b : List ℝ,
    ((List.zipWith (fun x y => x * y) a b).sum) ^ 2 ≤
      ((a.map (fun x => x * x)).sum) * ((b.map (fun y => y * y)).sum) := by
  induction a with
  | nil =>
    intro b
    simp
  | cons x a ih =>
    intro b
    cases b with
    | nil =>
      simp
    | cons y b =>
      have hA := normSq_nonneg a
      have hB := normSq_nonneg b
      have hd := ih b
      simp only [List.zipWith_cons_cons, List.map_cons, List.sum_cons]
      rcases eq_or_lt_of_le hA with hA0 | hApos
      · have hS : (List.zipWith (fun x y => x * y) a b).sum = 0 := by
          have h0 : ((List.zipWith (fun x y => x * y) a b).sum) ^ 2 ≤ 0 := by
            calc ((List.zipWith (fun x y => x * y) a b).sum) ^ 2
                ≤ ((a.map (fun x => x * x)).sum) * ((b.map (fun y => y * y)).sum) := hd
              _ = 0 := by rw [← hA0, zero_mul]
          have h1 := sq_nonneg ((List.zipWith (fun x y => x * y) a b).sum)
          have h2 : ((List.zipWith (fun x y => x * y) a b).sum) ^ 2 = 0 := le_antisymm h0 h1
          exact pow_eq_zero_iff (by norm_num : (2:ℕ) ≠ 0) |>.mp h2
        rw [hS, ← hA0]
        nlinarith [mul_nonneg (mul_self_nonneg x) hB, mul_self_nonneg y, mul_self_nonneg x]
      · nlinarith [sq_nonneg (((a.map (fun x => x * x)).sum) * y -
            x * (List.zipWith (fun x y => x * y) a b).sum),
          mul_nonneg (add_nonneg (mul_self_nonneg x) hA)
            (by nlinarith : (0:ℝ) ≤ ((a.map (fun x => x * x)).sum) *
              ((b.map (fun y => y * y)).sum) -
              ((List.zipWith (fun x y => x * y) a b).sum) ^ 2)]

theorem cosineSimilarity_ok_bound {a b : List ℝ} {s : ℝ}
    (h : cosineSimilarity a b = .ok s) : -1 ≤ s ∧ s ≤ 1 := by
  unfold cosineSimilarity at h
  split at h
  · exact absurd h (by simp)
  · rw [Except.ok.injEq] at h
    subst h
    split
    · constructor <;> norm_num
    · rename_i hden
      have hA := normSq_nonneg a
      have hB := normSq_nonneg b
      have hnn : 0 ≤ Real.sqrt ((a.map (fun x => x * x)).sum) *
          Real.sqrt ((b.map (fun y => y * y)).sum) :=
        mul_nonneg (Real.sqrt_nonneg _) (Real.sqrt_nonneg _)
      have hpos : 0 < Real.sqrt ((a.map (fun x => x * x)).sum) *
          Real.sqrt ((b.map (fun y => y * y)).sum) :=
        lt_of_le_of_ne hnn (Ne.symm hden)
      have habs : |(List.zipWith (fun x y => x * y) a b).sum| ≤
          Real.sqrt ((a.map (fun x => x * x)).sum) *
            Real.sqrt ((b.map (fun y => y * y)).sum) := by
        have h1 := Real.abs_le_sqrt (dot_sq_le a b)
        rwa [Real.sqrt_mul hA] at h1
      have hq : |(List.zipWith (fun x y => x * y) a b).sum /
          (Real.sqrt ((a.map (fun x => x * x)).sum) *
            Real.sqrt ((b.map (fun y => y * y)).sum))| ≤ 1 := by
        rw [abs_div, abs_of_nonneg hnn]
        exact (div_le_one hpos).mpr habs
      exact abs_le.mp hq

/-! ### Helper lemmas: the SimpleVectorStore search pipeline -/

theorem collectResults_ok_mem {q : List ℝ} {filter : Option Metadata} :
    ∀ {mems : List Memory} {res : List MemoryResult},
      collectResults q filter mems = .ok res → ∀ r ∈ res,
        r.memory ∈ mems ∧ keepMemory filter r.memory.metadata = true ∧
          cosineSimilarity q r.memory.embedding = .ok r.similarity := by
  intro mems
  induction mems with
  | nil =>
    intro res h r hr
    simp only [collectResults, Except.ok.injEq] at h
    subst h
    simp at hr
  | cons m rest ih =>
    intro res h r hr
    simp only [collectResults] at h
    by_cases hk : keepMemory filter m.metadata
    · rw [if_pos hk] at h
      cases hcos : cosineSimilarity q m.embedding with
      | error e => rw [hcos] at h; exact absurd h (by simp)
      | ok sim =>
        rw [hcos] at h
        cases hrest : collectResults q filter rest with
        | error e => rw [hrest] at h; exact absurd h (by simp)
        | ok others =>
          rw [hrest] at h
          rw [Except.ok.injEq] at h
          subst h
          rcases List.mem_cons.1 hr with hr0 | hr1
          · subst hr0
            exact ⟨List.mem_cons_self _ _, hk, hcos⟩
          · obtain ⟨h1, h2, h3⟩ := ih hrest r hr1
            exact ⟨List.mem_cons_of_mem _ h1, h2, h3⟩
    · rw [if_neg hk] at h
      obtain ⟨h1, h2, h3⟩ := ih h r hr
      exact ⟨List.mem_cons_of_mem _ h1, h2, h3⟩

theorem search_ok_spec {mems : List Memory} {q : List ℝ} {k : ℕ} {f : Option Metadata}
    {res : List MemoryResult} (h : SimpleVectorStore.search mems q k f = .ok res) :
    res.length ≤ k ∧ List.Sorted simGE res ∧
      ∀ r ∈ res, r.memory ∈ mems ∧ keepMemory f r.memory.metadata = true ∧
        cosineSimilarity q r.memory.embedding = .ok r.similarity := by
  unfold SimpleVectorStore.search at h
  split at h
  · rw [Except.ok.injEq] at h
    subst h
    exact ⟨Nat.zero_le _, List.sorted_nil, by simp⟩
  · cases hc : collectResults q f mems with
    | error e => rw [hc] at h; exact absurd h (by simp)
    | ok results =>
      rw [hc] at h
      rw [Except.ok.injEq] at h
      subst h
      refine ⟨?_, ?_, ?_⟩
      · rw [List.length_take]; exact min_le_left _ _
      · exact List.Pairwise.sublist (List.take_sublist _ _)
          (List.sorted_insertionSort simGE results)
      · intro r hr
        have hr2 : r ∈ results :=
          (List.mem_insertionSort simGE).1 (List.take_subset _ _ hr)
        exact collectResults_ok_mem hc r hr2

theorem collectResults_all_filtered {q : List ℝ} {f : Metadata} :
    ∀ {mems : List Memory}, (∀ m ∈ mems, matchesFilter m.metadata f = false) →
      collectResults q (some f) mems = .ok [] := by
  intro mems
  induction mems with
  | nil => intro _; rfl
  | cons m rest ih =>
    intro hall
    have hm : keepMemory (some f) m.metadata = false := hall m (List.mem_cons_self _ _)
    simp only [collectResults, hm, Bool.false_eq_true, if_false]
    exact ih (fun m hm => hall m (List.mem_cons_of_mem _ hm))

/-! ### Helper lemmas: the VectorStore (FAISS) search pipeline -/

theorem vscollect_length {mems : List Memory} {f : Option Metadata} {k : ℕ} :
    ∀ (pairs : List (Int × ℝ)) (count : ℕ), count < k →
      (VectorStore.collect mems f k pairs count).length ≤ k - count := by
  intro pairs
  induction pairs with
  | nil => intro count _; simp [VectorStore.collect]
  | cons p rest ih =>
    intro count hc
    obtain ⟨idx, d⟩ := p
    simp only [VectorStore.collect]
    cases memAt mems idx with
    | none => exact ih count hc
    | some memory =>
      dsimp only
      by_cases hk : keepMemory f memory.metadata
      · rw [if_pos hk]
        by_cases hbrk : k ≤ count + 1
        · rw [if_pos hbrk]
          simp only [List.length_cons, List.length_nil]
          omega
        · rw [if_neg hbrk]
          have := ih (count + 1) (by omega)
          simp only [List.length_cons]
          omega
      · rw [if_neg hk]
        exact ih count hc

theorem vscollect_sim {mems : List Memory} {f : Option Metadata} {k : ℕ} :
    ∀ (pairs : List (Int × ℝ)) (count : ℕ) (r : MemoryResult),
      r ∈ VectorStore.collect mems f k pairs count →
        ∃ p ∈ pairs, r.similarity = 1 / (1 + p.2) := by
  intro pairs
  induction pairs with
  | nil => intro count r hr; simp [VectorStore.collect] at hr
  | cons p rest ih =>
    intro count r hr
    obtain ⟨idx, d⟩ := p
    simp only [VectorStore.collect] at hr
    cases hmem : memAt mems idx with
    | none =>
      rw [hmem] at hr
      obtain ⟨p, hp, hs⟩ := ih count r hr
      exact ⟨p, List.mem_cons_of_mem _ hp, hs⟩
    | some memory =>
      rw [hmem] at hr
      dsimp only at hr
      by_cases hk : keepMemory f memory.metadata
      · rw [if_pos hk] at hr
        by_cases hbrk : k ≤ count + 1
        · rw [if_pos hbrk] at hr
          rcases List.mem_singleton.1 hr with rfl
          exact ⟨(idx, d), List.mem_cons_self _ _, rfl⟩
        · rw [if_neg hbrk] at hr
          rcases List.mem_cons.1 hr with rfl | hr1
          · exact ⟨(idx, d), List.mem_cons_self _ _, rfl⟩
          · obtain ⟨p, hp, hs⟩ := ih (count + 1) r hr1
            exact ⟨p, List.mem_cons_of_mem _ hp, hs⟩
      · rw [if_neg hk] at hr
        obtain ⟨p, hp, hs⟩ := ih count r hr
        exact ⟨p, List.mem_cons_of_mem _ hp, hs⟩

theorem vssearch_length {mems : List Memory} {faiss : FaissResult} {k : ℕ}
    {f : Option Metadata} (hlen : faiss.labels.length = min (k * 3) mems.length) :
    (VectorStore.search mems faiss k f).length ≤ k := by
  unfold VectorStore.search
  split
  · simp
  · have hperm := List.perm_insertionSort simGE
      (VectorStore.collect mems f k (faiss.labels.zip faiss.distances) 0)
    rw [hperm.length_eq]
    rcases Nat.eq_zero_or_pos k with rfl | hk
    · have : faiss.labels.length = 0 := by simpa using hlen
      have hz : faiss.labels.zip faiss.distances = [] := by
        cases hl : faiss.labels with
        | nil => simp
        | cons a l => rw [hl] at this; simp at this
      rw [hz]
      simp [VectorStore.collect]
    · have := @vscollect_length mems f k
        (faiss.labels.zip faiss.distances) 0 hk
      omega

/-! ### Claim theorems -/

/-- C5: for every store contents, query vector, filter and every topK at
least 0, similarity search returns at most topK results sorted in
descending order of similarity score; proved for the SimpleVectorStore
backend and for the FAISS-backed VectorStore, whose external index call
returns min(topK * 3, store size) labels. -/
theorem search_topk_capped_and_sorted :
    (∀ (mems : List Memory) (q : List ℝ) (k : ℕ) (f : Option Metadata)
        (res : List MemoryResult), SimpleVectorStore.search mems q k f = .ok res →
          res.length ≤ k ∧ List.Sorted simGE res) ∧
    (∀ (mems : List Memory) (faiss : FaissResult) (k : ℕ) (f : Option Metadata),
        faiss.labels.length = min (k * 3) mems.length →
          (VectorStore.search mems faiss k f).length ≤ k ∧
            List.Sorted simGE (VectorStore.search mems faiss k f)) := by
  constructor
  · intro mems q k f res h
    obtain ⟨h1, h2, -⟩ := search_ok_spec h
    exact ⟨h1, h2⟩
  · intro mems faiss k f hlen
    refine ⟨vssearch_length hlen, ?_⟩
    unfold VectorStore.search
    split
    · exact List.sorted_nil
    · exact List.sorted_insertionSort simGE _

/-- Witness for C5 at a concrete input: the empty store with topK zero. -/
theorem search_topk_capped_and_sorted_witness :
    (([] : List MemoryResult).length ≤ 0 ∧ List.Sorted simGE ([] : List MemoryResult)) ∧
    ((VectorStore.search [] ⟨[], []⟩ 0 none).length ≤ 0 ∧
      List.Sorted simGE (VectorStore.search [] ⟨[], []⟩ 0 none)) :=
  ⟨search_topk_capped_and_sorted.1 [] [] 0 none [] rfl,
   search_topk_capped_and_sorted.2 [] ⟨[], []⟩ 0 none rfl⟩

/-- C8: a similarity search on an empty store, or on a store in which no
record matches the filter, returns the empty result list and no error. -/
theorem search_empty_safe :
    (∀ (q : List ℝ) (k : ℕ) (f : Option Metadata),
        SimpleVectorStore.search [] q k f = .ok []) ∧
    (∀ (mems : List Memory) (q : List ℝ) (k : ℕ) (f : Metadata),
        (∀ m ∈ mems, matchesFilter m.metadata f = false) →
          SimpleVectorStore.search mems q k (some f) = .ok []) := by
  constructor
  · intro q k f
    rfl
  · intro mems q k f hall
    unfold SimpleVectorStore.search
    split
    · rfl
    · rw [collectResults_all_filtered hall]
      simp [List.take_nil]

/-- Witness for C8 at a concrete input: a store holding only a record of
bob, filtered for alice. -/
theorem search_empty_safe_witness :
    SimpleVectorStore.search [memBob] [] 3 (some [(userIdKey, .str "alice")]) = .ok [] :=
  search_empty_safe.2 [memBob] [] 3 [(userIdKey, .str "alice")] (by decide)

/-- C2: a similarity search with filter userId = x returns only results
whose record metadata has userId equal to x, for every store contents,
query vector, topK and owner key. -/
theorem search_tenant_isolation (mems : List Memory) (q : List ℝ) (k : ℕ) (x : String)
    (res : List MemoryResult) (r : MemoryResult)
    (hs : SimpleVectorStore.search mems q k (some [(userIdKey, .str x)]) = .ok res)
    (hr : r ∈ res) : mget r.memory.metadata userIdKey = some (.str x) := by
  obtain ⟨-, -, hmem⟩ := search_ok_spec hs
  obtain ⟨-, hkeep, -⟩ := hmem r hr
  simp only [keepMemory, matchesFilter, List.all_cons, List.all_nil, Bool.and_true,
    matchEntry] at hkeep
  rwa [beq_iff_eq] at hkeep

/-- Witness for C2 at a concrete input: a one-record store owned by
alice, searched with the alice filter. -/
theorem search_tenant_isolation_witness :
    mget memAlice.metadata userIdKey = some (.str "alice") := by
  have heval : SimpleVectorStore.search [memAlice] []
      5 (some [(userIdKey, MetaValue.str "alice")]) = .ok [⟨memAlice, 0⟩] := by
    unfold SimpleVectorStore.search
    rw [if_neg (by decide)]
    have hc : collectResults [] (some [(userIdKey, MetaValue.str "alice")]) [memAlice] =
        .ok [⟨memAlice, 0⟩] := by
      simp only [collectResults]
      rw [if_pos (by decide)]
      have hcos : cosineSimilarity [] memAlice.embedding = .ok 0 := by
        unfold cosineSimilarity memAlice
        norm_num [Real.sqrt_zero]
      rw [hcos]
    rw [hc]
    rfl
  exact search_tenant_isolation [memAlice] [] 5 "alice" [⟨memAlice, 0⟩] ⟨memAlice, 0⟩
    heval (List.mem_singleton.mpr rfl)

/-- C6 counterexample: on the store holding a single one-dimensional
record with embedding [-1], the query [1] produces a SearchResult whose
similarity is -1, which is not in [0,1]; the claimed bound fails. -/
theorem search_score_negative_example :
    SimpleVectorStore.search [memNeg] [1] 5 none = .ok [⟨memNeg, -1⟩] ∧
      ¬ (0 ≤ (-1 : ℝ)) := by
  constructor
  · unfold SimpleVectorStore.search
    rw [if_neg (by decide)]
    have hc : collectResults [1] none [memNeg] = .ok [⟨memNeg, -1⟩] := by
      simp only [collectResults]
      rw [if_pos (show keepMemory none memNeg.metadata = true from rfl)]
      have hcos : cosineSimilarity [1] memNeg.embedding = .ok (-1) := by
        unfold cosineSimilarity memNeg
        norm_num [Real.sqrt_one]
      rw [hcos]
    rw [hc]
    rfl
  · norm_num

/-- C6 amended: every SearchResult score of a SimpleVectorStore search
lies in [-1,1] (the cosine range; antiparallel vectors reach -1), and
every VectorStore score lies in [0,1] whenever the external FAISS
distances are nonnegative, since 1 / (1 + d) for d at least 0 is. -/
theorem search_scores_bounded :
    (∀ (mems : List Memory) (q : List ℝ) (k : ℕ) (f : Option Metadata)
        (res : List MemoryResult) (r : MemoryResult),
        SimpleVectorStore.search mems q k f = .ok res → r ∈ res →
          -1 ≤ r.similarity ∧ r.similarity ≤ 1) ∧
    (∀ (mems : List Memory) (faiss : FaissResult) (k : ℕ) (f : Option Metadata)
        (r : MemoryResult), (∀ d ∈ faiss.distances, 0 ≤ d) →
        r ∈ VectorStore.search mems faiss k f →
          0 ≤ r.similarity ∧ r.similarity ≤ 1) := by
  constructor
  · intro mems q k f res r hs hr
    obtain ⟨-, -, hmem⟩ := search_ok_spec hs
    exact cosineSimilarity_ok_bound (hmem r hr).2.2
  · intro mems faiss k f r hd hr
    unfold VectorStore.search at hr
    split at hr
    · simp at hr
    · have hr2 := (List.mem_insertionSort simGE).1 hr
      obtain ⟨p, hp, hs⟩ := vscollect_sim _ _ r hr2
      have hdp : 0 ≤ p.2 := hd p.2 (List.of_mem_zip hp).2
      rw [hs]
      constructor
      · exact div_nonneg (by norm_num) (by linarith)
      · rw [div_le_one (by linarith)]
        linarith

/-- Witness for C6 at concrete inputs: a zero-score cosine search hit and
a FAISS hit at distance 0. -/
theorem search_scores_bounded_witness :
    (-1 ≤ (MemoryResult.mk memZero 0).similarity ∧
      (MemoryResult.mk memZero 0).similarity ≤ 1) ∧
    (0 ≤ (MemoryResult.mk memZero (1 / (1 + 0))).similarity ∧
      (MemoryResult.mk memZero (1 / (1 + 0))).similarity ≤ 1) := by
  have heval : SimpleVectorStore.search [memZero] [] 5 none = .ok [⟨memZero, 0⟩] := by
    unfold SimpleVectorStore.search
    rw [if_neg (by decide)]
    have hc : collectResults [] none [memZero] = .ok [⟨memZero, 0⟩] := by
      simp only [collectResults]
      rw [if_pos (show keepMemory none memZero.metadata = true from rfl)]
      have hcos : cosineSimilarity [] memZero.embedding = .ok 0 := by
        unfold cosineSimilarity memZero
        norm_num [Real.sqrt_zero]
      rw [hcos]
    rw [hc]
    rfl
  constructor
  · exact search_scores_bounded.1 [memZero] [] 5 none [⟨memZero, 0⟩] ⟨memZero, 0⟩
      heval (List.mem_singleton.mpr rfl)
  · exact search_scores_bounded.2 [memZero] ⟨[0], [0]⟩ 5 none ⟨memZero, 1 / (1 + 0)⟩
      (by intro d hd; simp at hd; rw [hd]) (List.mem_singleton.mpr rfl)

/-! ### Helper lemmas: association-list updates -/

theorem mget_objSet_same (md : Metadata) (k : String) (v : MetaValue) :
    mget (objSet md k v) k = some v := by
  simp [mget, objSet, List.lookup]

theorem mget_objSet_ne (md : Metadata) (k k2 : String) (v : MetaValue)
    (h : (k2 == k) = false) : mget (objSet md k v) k2 = mget md k2 := by
  simp [mget, objSet, List.lookup, h]

theorem flatMetadata_importance (now : ℚ) (content : String) (md : Metadata) :
    mget (PineconeRAG.flatMetadata now content md) importanceKey =
      some (jsOr (mget md importanceKey) (.num (1/2))) := by
  unfold PineconeRAG.flatMetadata
  split
  · split
    · simp [mget, List.lookup, contentKey, timestampKey, userIdKey, conversationIdKey,
        messageTypeKey, importanceKey, categoryKey]
    · simp [mget, List.lookup, contentKey, timestampKey, userIdKey, conversationIdKey,
        messageTypeKey, importanceKey, categoryKey]
  · simp [mget, List.lookup, contentKey, timestampKey, userIdKey, conversationIdKey,
      messageTypeKey, importanceKey, categoryKey]

/-- C4: the heuristic fallback classifier returns the specified decision
on each of the four concrete scenarios: a bare greeting is not stored
(casual), a self-introduction is stored as personal with importance at
least 0.8, a preference statement is stored as preference, and a
substantial question is stored as question. -/
theorem heuristic_fallback_scenarios :
    ((SmartMemoryFilter.heuristicAnalysis "hi" "").shouldStore = false ∧
      (SmartMemoryFilter.heuristicAnalysis "hi" "").category = .casual) ∧
    ((SmartMemoryFilter.heuristicAnalysis "My name is Alice" "Nice to meet you").shouldStore
        = true ∧
      (SmartMemoryFilter.heuristicAnalysis "My name is Alice" "Nice to meet you").category
        = .personal ∧
      8/10 ≤ (SmartMemoryFilter.heuristicAnalysis "My name is Alice"
        "Nice to meet you").importance) ∧
    ((SmartMemoryFilter.heuristicAnalysis "I prefer dark roast coffee" "Noted").shouldStore
        = true ∧
      (SmartMemoryFilter.heuristicAnalysis "I prefer dark roast coffee" "Noted").category
        = .preference) ∧
    ((SmartMemoryFilter.heuristicAnalysis
        "What is the capital of France? Please explain briefly."
        "Paris is the capital.").shouldStore = true ∧
      (SmartMemoryFilter.heuristicAnalysis
        "What is the capital of France? Please explain briefly."
        "Paris is the capital.").category = .question) := by
  refine ⟨by decide, ⟨by decide, by decide, ?_⟩, by decide, by decide⟩
  have h : (SmartMemoryFilter.heuristicAnalysis "My name is Alice"
      "Nice to meet you").importance = 9/10 := rfl
  rw [h]
  norm_num

/-- C7: whenever the primary path of analyzeConversation fails, because
the external generation call throws or because its response does not
parse as the required structured format, the call still returns the
heuristic fallback decision; no parse or generation failure propagates. -/
theorem analyze_conversation_fallback
    (parseDecision : String → Option SmartMemoryFilter.MemoryDecision)
    (userMessage aiResponse : String) :
    (∀ e, SmartMemoryFilter.analyzeConversation (.error e) parseDecision
        userMessage aiResponse =
        SmartMemoryFilter.heuristicAnalysis userMessage aiResponse) ∧
    (∀ response, parseDecision (SmartMemoryFilter.cleanResponse response) = none →
        SmartMemoryFilter.analyzeConversation (.ok response) parseDecision
          userMessage aiResponse =
          SmartMemoryFilter.heuristicAnalysis userMessage aiResponse) := by
  constructor
  · intro e
    rfl
  · intro response hp
    unfold SmartMemoryFilter.analyzeConversation
    dsimp only
    rw [hp]

/-- Witness for C7 at a concrete input: an unparseable LLM response. -/
theorem analyze_conversation_fallback_witness :
    SmartMemoryFilter.analyzeConversation (.ok "garbage") (fun _ => none) "hi" "" =
      SmartMemoryFilter.heuristicAnalysis "hi" "" :=
  (analyze_conversation_fallback (fun _ => none) "hi" "").2 "garbage" rfl

/-- C9: within one rememberConversation call, the user-turn record is
inserted into the store before the assistant-turn record is attempted (the
store after the first insert is the old store plus the user record), and
in the resulting store the user record occurs before the assistant
record. -/
theorem remember_conversation_order (embed : String → List ℝ) (idU idA : String)
    (nowU nowA : ℚ) (um am cid : String) (md : Metadata) (store : List Memory) :
    ∃ (pre mid post : List Memory) (u a : Memory),
      (Supermemory.rememberConversation embed idU idA nowU nowA um am cid md store).2 =
        pre ++ u :: mid ++ a :: post ∧
      u.id = idU ∧ u.content = um ∧
      a.id = idA ∧ a.content = am ∧
      mget u.metadata messageTypeKey = some (.str "user") ∧
      mget a.metadata messageTypeKey = some (.str "assistant") ∧
      (Supermemory.remember embed idU nowU um
          (objSet (md ++ [(conversationIdKey, .str cid)]) messageTypeKey (.str "user"))
          store).2 = store ++ [u] := by
  refine ⟨store, [], [],
    Supermemory.mkMemory embed idU nowU um
      (objSet (md ++ [(conversationIdKey, .str cid)]) messageTypeKey (.str "user")),
    Supermemory.mkMemory embed idA nowA am
      (objSet (md ++ [(conversationIdKey, .str cid)]) messageTypeKey (.str "assistant")),
    ?_, rfl, rfl, rfl, rfl, ?_, ?_, ?_⟩
  · simp [Supermemory.rememberConversation, Supermemory.remember, SimpleVectorStore.add]
  · simp [Supermemory.mkMemory, mget, objSet, List.lookup, importanceKey, messageTypeKey]
  · simp [Supermemory.mkMemory, mget, objSet, List.lookup, importanceKey, messageTypeKey]
  · rfl

/-- C10: a store operation whose metadata carries importance 0 persists
importance 0.5, exactly as when importance is omitted, in
Supermemory.remember (through mkMemory), PineconeRAG.create and
ChromaRAG.create; an explicit importance of 0 is never persisted as 0. -/
theorem importance_zero_becomes_half (embed : String → List ℝ) (newId : String) (now : ℚ)
    (content : String) (md : Metadata) (store : List Memory) (numToString : ℚ → String)
    (h : mget md importanceKey = none) :
    mget (Supermemory.mkMemory embed newId now content
        (objSet md importanceKey (.num 0))).metadata importanceKey = some (.num (1/2)) ∧
    mget (Supermemory.mkMemory embed newId now content md).metadata importanceKey
        = some (.num (1/2)) ∧
    (Supermemory.remember embed newId now content (objSet md importanceKey (.num 0)) store).2
        = store ++ [Supermemory.mkMemory embed newId now content
            (objSet md importanceKey (.num 0))] ∧
    mget (PineconeRAG.create embed newId now content
        (objSet md importanceKey (.num 0))).metadata importanceKey = some (.num (1/2)) ∧
    mget (PineconeRAG.create embed newId now content md).metadata importanceKey
        = some (.num (1/2)) ∧
    mget (ChromaRAG.create embed numToString newId now content
        (objSet md importanceKey (.num 0))).metadata importanceKey
        = some (.str (numToString (1/2))) ∧
    mget (ChromaRAG.create embed numToString newId now content md).metadata importanceKey
        = some (.str (numToString (1/2))) := by
  refine ⟨?_, ?_, rfl, ?_, ?_, ?_, ?_⟩
  · simp [Supermemory.mkMemory, mget_objSet_same, jsOr, truthy]
  · simp [Supermemory.mkMemory, mget_objSet_same, h, jsOr]
  · rw [show (PineconeRAG.create embed newId now content
        (objSet md importanceKey (.num 0))).metadata =
        PineconeRAG.flatMetadata now content (objSet md importanceKey (.num 0)) from rfl,
      flatMetadata_importance]
    simp [mget_objSet_same, jsOr, truthy]
  · rw [show (PineconeRAG.create embed newId now content md).metadata =
        PineconeRAG.flatMetadata now content md from rfl,
      flatMetadata_importance]
    simp [h, jsOr]
  · simp [ChromaRAG.create, ChromaRAG.createMetadata, mget, List.lookup,
      contentKey, timestampKey, userIdKey, conversationIdKey, messageTypeKey,
      importanceKey, categoryKey, tagsKey, mget_objSet_same, jsOrNum]
  · simp [ChromaRAG.create, ChromaRAG.createMetadata, mget, List.lookup,
      contentKey, timestampKey, userIdKey, conversationIdKey, messageTypeKey,
      importanceKey, categoryKey, tagsKey,
      show List.lookup "importance" md = none from h, jsOrNum]

/-- Witness for C10 at a concrete input: creating a record with explicit
importance 0 over empty metadata persists importance 0.5 in Pinecone. -/
theorem importance_zero_becomes_half_witness :
    mget (PineconeRAG.create (fun _ => []) "id-1" 0 "note"
        (objSet [] importanceKey (.num 0))).metadata importanceKey = some (.num (1/2)) :=
  (importance_zero_becomes_half (fun _ => []) "id-1" 0 "note" [] [] (fun _ => "")
    rfl).2.2.2.1

/-- C1 (divergence witness): PineconeRAG.retrieve defaults its similarity
threshold to 0.3 as the claim requires, but ChromaRAG.retrieve defaults
to 0.7, above the claimed 0.3 to 0.4 band: with no explicit threshold, a
record at similarity 0.5 is dropped by the Chroma default while the
Pinecone default retains it. -/
theorem default_threshold_divergence :
    pineconeDefaultThreshold = 3/10 ∧
    chromaDefaultThreshold = 7/10 ∧
    ¬ chromaDefaultThreshold ≤ 2/5 ∧
    ChromaRAG.retrieveRows (fun _ => 0) (fun _ => 0) [halfRow] noThresholdOptions = [] ∧
    (PineconeRAG.retrieve [halfMatch] noThresholdOptions).length = 1 := by
  refine ⟨rfl, rfl, by norm_num [chromaDefaultThreshold], ?_, ?_⟩
  · unfold ChromaRAG.retrieveRows noThresholdOptions halfRow
    simp only [Option.getD, List.foldr]
    rw [if_neg (by norm_num [chromaDefaultThreshold])]
  · unfold PineconeRAG.retrieve noThresholdOptions halfMatch
    simp only [Option.getD, List.foldr]
    rw [if_pos (by constructor <;> norm_num [pineconeDefaultThreshold])]
    rfl

/-! ### Helper lemmas: substring containment under concatenation -/

theorem listContains_nil_pat (l : List Char) : listContains l [] = true := by
  cases l <;> rfl

theorem listContains_append_right {s pat : List Char}
    (h : listContains s pat = true) (t : List Char) : listContains (s ++ t) pat = true := by
  induction s with
  | nil =>
    have hp : pat = [] := by
      cases pat with
      | nil => rfl
      | cons c r => simp [listContains, List.isEmpty] at h
    subst hp
    exact listContains_nil_pat t
  | cons c r ih =>
    simp only [listContains, Bool.or_eq_true] at h
    simp only [List.cons_append, listContains, Bool.or_eq_true]
    rcases h with h1 | h2
    · left
      rw [List.isPrefixOf_iff_prefix] at h1 ⊢
      exact h1.trans (List.prefix_append (c :: r) t)
    · right
      exact ih h2

theorem listContains_append_left {t pat : List Char}
    (h : listContains t pat = true) (s : List Char) : listContains (s ++ t) pat = true := by
  induction s with
  | nil => exact h
  | cons c r ih =>
    simp only [List.cons_append, listContains, Bool.or_eq_true]
    right
    exact ih

theorem containsSubstr_append_right {s : String} {pat : String}
    (h : containsSubstr s pat = true) (t : String) : containsSubstr (s ++ t) pat = true := by
  unfold containsSubstr at h ⊢
  rw [String.data_append]
  exact listContains_append_right h t.data

theorem containsSubstr_append_left {t : String} {pat : String}
    (h : containsSubstr t pat = true) (s : String) : containsSubstr (s ++ t) pat = true := by
  unfold containsSubstr at h ⊢
  rw [String.data_append]
  exact listContains_append_left h s.data

/-- C3 counterexample: on a query whose retrieval yields zero results,
Supermemory.formatContextForPrompt omits the memories section entirely:
its output contains neither the section marker nor any statement that no
relevant memories were found. -/
theorem format_context_omits_section :
    containsSubstr (Supermemory.formatContextForPrompt (fun _ => "") (fun _ => "")
      ⟨none, [], "Hello"⟩) relevantMemoriesMarker = false ∧
    containsSubstr (Supermemory.formatContextForPrompt (fun _ => "") (fun _ => "")
      ⟨none, [], "Hello"⟩) noMemoriesMessage = false := by
  constructor <;> decide

/-- C3 amended: the context composed by PineconeRAG.retrieveAndGenerate
always contains the memories section marker, and when retrieval returned
zero results it also contains the explicit no-memories statement;
Supermemory.formatContextForPrompt, by contrast, omits the section when
there are zero results (see the counterexample). -/
theorem pinecone_context_stable_marker (fmtDate : ℚ → String) (fmtFixed1 : ℝ → String)
    (systemPrompt : Option String) (query : String) :
    (∀ memories, containsSubstr
        (PineconeRAG.buildContext fmtDate fmtFixed1 systemPrompt query memories)
        relevantMemoriesMarker = true) ∧
    containsSubstr (PineconeRAG.buildContext fmtDate fmtFixed1 systemPrompt query [])
        noMemoriesMessage = true := by
  constructor
  · intro memories
    unfold PineconeRAG.buildContext
    dsimp only
    apply containsSubstr_append_right
    apply containsSubstr_append_right
    apply containsSubstr_append_right
    split
    · apply containsSubstr_append_right
      apply containsSubstr_append_left
      decide
    · apply containsSubstr_append_right
      apply containsSubstr_append_left
      decide
  · unfold PineconeRAG.buildContext
    dsimp only
    apply containsSubstr_append_right
    apply containsSubstr_append_right
    apply containsSubstr_append_right
    rw [if_neg (by simp)]
    apply containsSubstr_append_left
    decide

end Supermem


